import Mathlib

/-!
Verification development for the daily-challenge scaffolding scripts in
`src/daily.ts`.  The file contains two near-duplicate versions of the same
script (separated in the source); we refer to them as v1 (the first, plain
function version) and v2 (the second, class-based version).  Strings are
modelled as `List Char`.  JavaScript `toLowerCase` is modelled on the ASCII
range (sufficient for every property below, since the slug filter keeps only
ASCII `[a-z0-9-]` and all concrete inputs are ASCII).
-/

set_option maxRecDepth 4000

/-- Character class of the JavaScript regex `\s` (also the set removed by
`String.prototype.trim`). -/
def jsWs (c : Char) : Bool :=
  decide (c.toNat = 32 ∨ c.toNat = 9 ∨ c.toNat = 10 ∨ c.toNat = 13 ∨
    c.toNat = 11 ∨ c.toNat = 12 ∨ c.toNat = 160 ∨ c.toNat = 5760 ∨
    (8192 ≤ c.toNat ∧ c.toNat ≤ 8202) ∨ c.toNat = 8232 ∨ c.toNat = 8233 ∨
    c.toNat = 8239 ∨ c.toNat = 8287 ∨ c.toNat = 12288 ∨ c.toNat = 65279)

/-- ASCII model of JavaScript `String.prototype.toLowerCase`, applied
characterwise. -/
def jsToLower (c : Char) : Char :=
  if 65 ≤ c.toNat ∧ c.toNat ≤ 90 then Char.ofNat (c.toNat + 32) else c

/-- Characters kept by the final step of `toKebabCase`
(the regex `[^a-z0-9-]` is removed, so these are `[a-z0-9-]`). -/
def isSlugChar (c : Char) : Bool :=
  decide ((97 ≤ c.toNat ∧ c.toNat ≤ 122) ∨ (48 ≤ c.toNat ∧ c.toNat ≤ 57) ∨
    c.toNat = 45)

/-- Model of `str.replace(/\s+/g, "-")`: each maximal run of whitespace
becomes a single hyphen.  The boolean flag records whether the previous
character was part of a whitespace run. -/
def collapseWs : Bool → List Char → List Char
  | _, [] => []
  | prevWs, c :: rest =>
    if jsWs c then
      (if prevWs then [] else ['-']) ++ collapseWs true rest
    else
      c :: collapseWs false rest

/-- `toKebabCase` from `src/daily.ts` (both versions): lowercase, collapse
whitespace runs to hyphens, strip everything outside `[a-z0-9-]`. -/
def toKebabCase (str : List Char) : List Char :=
  (collapseWs false (str.map jsToLower)).filter isSlugChar

/-- Model of JavaScript `String.prototype.trim`. -/
def trimJs (s : List Char) : List Char :=
  ((s.dropWhile jsWs).reverse.dropWhile jsWs).reverse

/-- Model of `content.split("\n")`. -/
def splitNl : List Char → List (List Char)
  | [] => [[]]
  | c :: rest =>
    if c = '\n' then [] :: splitNl rest
    else
      match splitNl rest with
      | [] => [[c]]
      | l :: ls => (c :: l) :: ls

/-- Substring occurrence test (JavaScript `String.prototype.includes`). -/
def occursIn (pat : List Char) : List Char → Bool
  | [] => pat.isEmpty
  | c :: rest => pat.isPrefixOf (c :: rest) || occursIn pat rest

/-- Fueled worker for `replaceAll`.  The pattern is `p :: ps` (never empty in
this file).  With fuel at least the length of the string this is exactly
JavaScript global replacement of a literal pattern: scan left to right,
replace each non-overlapping occurrence, never rescan the replacement. -/
def replaceAllFuel (p : Char) (ps rep : List Char) : Nat → List Char → List Char
  | 0, s => s
  | _, [] => []
  | fuel + 1, c :: rest =>
    if c = p ∧ ps.isPrefixOf rest then
      rep ++ replaceAllFuel p ps rep fuel (rest.drop ps.length)
    else
      c :: replaceAllFuel p ps rep fuel rest

/-- Model of `s.replace(pat, rep)` with `pat` a global literal pattern
`p :: ps`. -/
def replaceAll (p : Char) (ps rep s : List Char) : List Char :=
  replaceAllFuel p ps rep s.length s

/-- One-pass scanner equivalent to `html.replace(/<[^>]+>/g, "")`: outside a
candidate tag (state `none`) characters are copied; after an unmatched `<`
the scanned characters are buffered (state `some buf`, buffer reversed) until
a `>` closes the tag (buffer dropped if nonempty, the regex needs at least
one character between the brackets) or the input ends (buffer emitted,
no match). -/
def stripTagsAux : Option (List Char) → List Char → List Char
  | none, [] => []
  | some buf, [] => '<' :: buf.reverse
  | none, c :: rest =>
    if c = '<' then stripTagsAux (some []) rest
    else c :: stripTagsAux none rest
  | some buf, c :: rest =>
    if c = '>' then
      match buf with
      | [] => '<' :: '>' :: stripTagsAux none rest
      | _ :: _ => stripTagsAux none rest
    else stripTagsAux (some (c :: buf)) rest

/-- Model of the tag-stripping step `html.replace(/<[^>]+>/g, "")`. -/
def stripTags (s : List Char) : List Char :=
  stripTagsAux none s

/-- The six literal entity patterns decoded by `htmlToText`. -/
def entityPatterns : List (List Char) :=
  [("&nbsp;").toList, ("&lt;").toList, ("&gt;").toList,
   ("&quot;").toList, ("&#39;").toList, ("&amp;").toList]

/-- The chained entity replacements of `htmlToText`, in source order. -/
def decodeEntities (s : List Char) : List Char :=
  replaceAll '&' (("amp;").toList) ['&']
    (replaceAll '&' (("#39;").toList) ['\'']
      (replaceAll '&' (("quot;").toList) ['"']
        (replaceAll '&' (("gt;").toList) ['>']
          (replaceAll '&' (("lt;").toList) ['<']
            (replaceAll '&' (("nbsp;").toList) [' '] s)))))

/-- `htmlToText` from v2 (identical to the body of v1's `htmlToComment`):
strip tags, decode the six entities, trim. -/
def htmlToText (html : List Char) : List Char :=
  trimJs (decodeEntities (stripTags html))

/-- True when none of the six entity patterns occurs in `s`. -/
def noEntityOcc (s : List Char) : Bool :=
  entityPatterns.all (fun p => !(occursIn p s))

/-- The fixed language catalog `LANGUAGE_EXTENSIONS` (identical in both
versions), in source order. -/
def LANGUAGE_EXTENSIONS : List (List Char × List Char) :=
  [(("python").toList, ("py").toList),
   (("typescript").toList, ("ts").toList),
   (("javascript").toList, ("js").toList),
   (("java").toList, ("java").toList),
   (("cpp").toList, ("cpp").toList),
   (("c").toList, ("c").toList),
   (("csharp").toList, ("cs").toList),
   (("dart").toList, ("dart").toList),
   (("php").toList, ("php").toList),
   (("go").toList, ("go").toList),
   (("rust").toList, ("rs").toList),
   (("ruby").toList, ("rb").toList),
   (("swift").toList, ("swift").toList),
   (("kotlin").toList, ("kt").toList)]

/-- The fixed comment-delimiter catalog `COMMENT_STYLES` (the v1 `commentMap`
has the same entries). -/
def COMMENT_STYLES : List (List Char × (List Char × List Char)) :=
  [(("python").toList, (("\"\"\"").toList, ("\"\"\"").toList)),
   (("typescript").toList, (("/*").toList, ("*/").toList)),
   (("javascript").toList, (("/*").toList, ("*/").toList)),
   (("java").toList, (("/*").toList, ("*/").toList)),
   (("cpp").toList, (("/*").toList, ("*/").toList)),
   (("c").toList, (("/*").toList, ("*/").toList)),
   (("csharp").toList, (("/*").toList, ("*/").toList)),
   (("dart").toList, (("/*").toList, ("*/").toList)),
   (("php").toList, (("/*").toList, ("*/").toList)),
   (("go").toList, (("/*").toList, ("*/").toList)),
   (("rust").toList, (("/*").toList, ("*/").toList)),
   (("ruby").toList, (("=begin").toList, ("=end").toList)),
   (("swift").toList, (("/*").toList, ("*/").toList)),
   (("kotlin").toList, (("/*").toList, ("*/").toList))]

/-- A per-language starter snippet as returned by the remote service. -/
structure CodeSnippet where
  lang : List Char
  langSlug : List Char
  code : List Char
deriving DecidableEq

/-- The fetched problem payload (`ProblemDetails` in the source). -/
structure ProblemDetails where
  content : List Char
  codeSnippets : List CodeSnippet
  difficulty : List Char
  questionId : List Char
  title : List Char
  titleSlug : List Char
deriving DecidableEq

/-- Comment delimiters for a language: catalog entry, defaulting to
`/* ... */` (`commentMap[language] || ["/*", "*/"]`). -/
def commentStyle (language : List Char) : List Char × List Char :=
  match List.lookup language COMMENT_STYLES with
  | some st => st
  | none => (("/*").toList, ("*/").toList)

/-- `formatProblemFile`: comment-wrapped plain-text statement, a blank line,
then the snippet code (`start + "\n" + text + "\n" + end + "\n\n" + code`). -/
def formatProblemFile (language problemContent code : List Char) : List Char :=
  (commentStyle language).1 ++ '\n' :: htmlToText problemContent ++
    '\n' :: (commentStyle language).2 ++ '\n' :: '\n' :: code

/-- Line scanner of v2 `FileManager.hasNonCommentContent`: returns `true` as
soon as a line is non-blank, outside a `/* ... */` block, does not start with
`//`, `#`, `=begin`, `=end`, and is not exactly `\"\"\"`.  The boolean state
is the `inBlockComment` flag. -/
def scanLines : Bool → List (List Char) → Bool
  | _, [] => false
  | inBlock, line :: rest =>
    if (trimJs line).isEmpty then scanLines inBlock rest
    else
      if (if occursIn (("/*").toList) (trimJs line) then true else inBlock) then
        scanLines (!occursIn (("*/").toList) (trimJs line)) rest
      else if (("//").toList).isPrefixOf (trimJs line)
           || (("#").toList).isPrefixOf (trimJs line)
           || (("=begin").toList).isPrefixOf (trimJs line)
           || (("=end").toList).isPrefixOf (trimJs line)
           || trimJs line == ("\"\"\"").toList then
        scanLines (if occursIn (("/*").toList) (trimJs line) then true else inBlock) rest
      else true

/-- v2 `FileManager.hasNonCommentContent`.  The argument is the result of
`fs.readFile`: `none` when the read throws (the `catch` returns `false`). -/
def hasNonCommentContent : Option (List Char) → Bool
  | none => false
  | some content => scanLines false (splitNl content)

/-- v1 `hasContent`: drop lines that are blank or start with `/*`, `*/` or
`//`, join the survivors, and test whether anything non-blank remains.
`none` models a failed read (`catch` returns `false`). -/
def hasContent : Option (List Char) → Bool
  | none => false
  | some content =>
    !(trimJs (List.flatten ((splitNl content).filter (fun line =>
      !((("/*").toList).isPrefixOf (trimJs line))
        && !((("*/").toList).isPrefixOf (trimJs line))
        && !((("//").toList).isPrefixOf (trimJs line))
        && !(trimJs line).isEmpty)))).isEmpty

/-- Global replacement of every hyphen in `kebabTitle` by an underscore. -/
def underscoreKebab (kebab : List Char) : List Char :=
  kebab.map (fun c => if c = '-' then '_' else c)

/-- v2 `FileManager.getFileName`: `questionId_slug.ext` with underscores for
dart, `questionId-slug.ext` otherwise; the extension is looked up in the
catalog (`undefined` stringified on a miss, as JavaScript would). -/
def getFileName (language : List Char) (details : ProblemDetails)
    (kebabTitle : List Char) : List Char :=
  (if language == ("dart").toList then
    details.questionId ++ '_' :: underscoreKebab kebabTitle
  else
    details.questionId ++ '-' :: kebabTitle) ++
  '.' :: (match List.lookup language LANGUAGE_EXTENSIONS with
          | some e => e
          | none => ("undefined").toList)

/-- `path.join` restricted to the plain relative segments used here. -/
def slashJoin (a b : List Char) : List Char :=
  a ++ '/' :: b

/-- The resolved target path of one language in v2:
`path.join(path.join(language, difficulty.toLowerCase()), fileName)`. -/
def stepPath (details : ProblemDetails) (kebabTitle language : List Char) :
    List Char :=
  slashJoin (slashJoin language (details.difficulty.map jsToLower))
    (getFileName language details kebabTitle)

/-- How the filesystem behaves at one path during a run: whether `fs.access`
succeeds (`present`), what `fs.readFile` yields (`none` = the read throws),
and whether `fs.mkdir` and `fs.writeFile` succeed. -/
structure FileView where
  present : Bool
  readResult : Option (List Char)
  mkdirOk : Bool
  writeOk : Bool
deriving DecidableEq

/-- Classification of one language's iteration in v2
`FileManager.createSolutionFiles`: pushed to `created` / `updated` /
`skipped`, or an error that is only logged. -/
inductive FileOp
  | createdOp
  | updatedOp
  | skippedOp
  | errorOp
deriving DecidableEq

/-- Record of one language's iteration: its outcome, the resolved path, and
the content written by a successful `fs.writeFile` (if any). -/
structure StepResult where
  language : List Char
  outcome : FileOp
  filePath : List Char
  written : Option (List Char)
deriving DecidableEq

/-- The template code used for a language: the matching snippet's code, or
the empty string when no snippet matches (`snippet?.code || ""`). -/
def snippetCode (details : ProblemDetails) (language : List Char) : List Char :=
  match details.codeSnippets.find? (fun s => s.langSlug == language) with
  | some s => s.code
  | none => []

/-- The full file body composed for a language. -/
def solutionContent (details : ProblemDetails) (language : List Char) :
    List Char :=
  formatProblemFile language details.content (snippetCode details language)

/-- One iteration of the per-language loop of v2
`FileManager.createSolutionFiles`: skip when the file exists and the scanner
reports non-comment content; otherwise mkdir, compose, write; a failing
mkdir or write is caught and logged (`errorOp`); a successful write is
`updatedOp` when the file pre-existed, else `createdOp`. -/
def processLanguage (env : List Char → FileView) (details : ProblemDetails)
    (kebabTitle : List Char) (entry : List Char × List Char) : StepResult :=
  if (env (stepPath details kebabTitle entry.1)).present = true
      ∧ hasNonCommentContent
          (env (stepPath details kebabTitle entry.1)).readResult = true then
    ⟨entry.1, FileOp.skippedOp, stepPath details kebabTitle entry.1, none⟩
  else if (env (stepPath details kebabTitle entry.1)).mkdirOk = false then
    ⟨entry.1, FileOp.errorOp, stepPath details kebabTitle entry.1, none⟩
  else if (env (stepPath details kebabTitle entry.1)).writeOk = false then
    ⟨entry.1, FileOp.errorOp, stepPath details kebabTitle entry.1, none⟩
  else if (env (stepPath details kebabTitle entry.1)).present = true then
    ⟨entry.1, FileOp.updatedOp, stepPath details kebabTitle entry.1,
      some (solutionContent details entry.1)⟩
  else
    ⟨entry.1, FileOp.createdOp, stepPath details kebabTitle entry.1,
      some (solutionContent details entry.1)⟩

/-- The `FileOperationResult` accumulator of v2 (`created`, `updated`,
`skipped` path lists). -/
structure FileOperationResult where
  created : List (List Char)
  updated : List (List Char)
  skipped : List (List Char)
deriving DecidableEq

/-- Distribute the step records over the three outcome lists, in catalog
order; an `errorOp` step is recorded nowhere (only logged). -/
def collectOutcomes : List StepResult → FileOperationResult
  | [] => ⟨[], [], []⟩
  | st :: rest =>
    match st.outcome with
    | FileOp.createdOp => ⟨st.filePath :: (collectOutcomes rest).created,
        (collectOutcomes rest).updated, (collectOutcomes rest).skipped⟩
    | FileOp.updatedOp => ⟨(collectOutcomes rest).created,
        st.filePath :: (collectOutcomes rest).updated,
        (collectOutcomes rest).skipped⟩
    | FileOp.skippedOp => ⟨(collectOutcomes rest).created,
        (collectOutcomes rest).updated,
        st.filePath :: (collectOutcomes rest).skipped⟩
    | FileOp.errorOp => collectOutcomes rest

/-- v2 `FileManager.createSolutionFiles`: iterate the whole catalog (the
per-iteration `try`/`catch` means no failure ever aborts the loop) and
return the outcome lists together with the per-language records. -/
def createSolutionFiles (env : List Char → FileView)
    (details : ProblemDetails) : FileOperationResult × List StepResult :=
  (collectOutcomes (LANGUAGE_EXTENSIONS.map
      (processLanguage env details (toKebabCase details.title))),
   LANGUAGE_EXTENSIONS.map
      (processLanguage env details (toKebabCase details.title)))

/-- State of v1's inline materialization loop in `getDailyLeetcodeChallenge`
(lines 523-564): the three path lists it pushes to, plus bookkeeping for the
proofs: which paths were successfully written and which languages were
reached at all. -/
structure V1State where
  existingFiles : List (List Char)
  createdFiles : List (List Char)
  skippedFiles : List (List Char)
  writtenPaths : List (List Char)
  attempted : List (List Char)
deriving DecidableEq

/-- The v1 file name (computed inline in both v1 loops): the extension comes
from the iterated catalog entry, not from a lookup. -/
def fileNameV1 (details : ProblemDetails) (kebabTitle : List Char)
    (entry : List Char × List Char) : List Char :=
  if entry.1 == ("dart").toList then
    details.questionId ++ '_' :: underscoreKebab kebabTitle ++ '.' :: entry.2
  else
    details.questionId ++ '-' :: kebabTitle ++ '.' :: entry.2

/-- The v1 target path for one catalog entry. -/
def stepPathV1 (details : ProblemDetails) (kebabTitle : List Char)
    (entry : List Char × List Char) : List Char :=
  slashJoin (slashJoin entry.1 (details.difficulty.map jsToLower))
    (fileNameV1 details kebabTitle entry)

/-- The inline per-language loop of v1 `getDailyLeetcodeChallenge`.  Only
`fs.access`, `hasContent` and `fs.mkdir` sit inside the per-iteration
`try`/`catch`; `fs.writeFile` (and a failing `fs.mkdir`, which rethrows out
of the `catch` block) abort the whole loop, modelled by `Except.error`
carrying the failing path and the state reached so far. -/
def loopV1 (env : List Char → FileView) (details : ProblemDetails)
    (kebabTitle : List Char) :
    V1State → List (List Char × List Char) → Except (List Char × V1State) V1State
  | st, [] => Except.ok st
  | st, entry :: rest =>
    if (env (stepPathV1 details kebabTitle entry)).present = true then
      if hasContent (env (stepPathV1 details kebabTitle entry)).readResult = true then
        loopV1 env details kebabTitle
          { st with
            skippedFiles := st.skippedFiles ++ [stepPathV1 details kebabTitle entry],
            attempted := st.attempted ++ [entry.1] } rest
      else if (env (stepPathV1 details kebabTitle entry)).writeOk = true then
        loopV1 env details kebabTitle
          { st with
            existingFiles := st.existingFiles ++ [stepPathV1 details kebabTitle entry],
            writtenPaths := st.writtenPaths ++ [stepPathV1 details kebabTitle entry],
            attempted := st.attempted ++ [entry.1] } rest
      else
        Except.error (stepPathV1 details kebabTitle entry,
          { st with
            existingFiles := st.existingFiles ++ [stepPathV1 details kebabTitle entry],
            attempted := st.attempted ++ [entry.1] })
    else if (env (stepPathV1 details kebabTitle entry)).mkdirOk = false then
      Except.error (stepPathV1 details kebabTitle entry,
        { st with attempted := st.attempted ++ [entry.1] })
    else if (env (stepPathV1 details kebabTitle entry)).writeOk = true then
      loopV1 env details kebabTitle
        { st with
          createdFiles := st.createdFiles ++ [stepPathV1 details kebabTitle entry],
          writtenPaths := st.writtenPaths ++ [stepPathV1 details kebabTitle entry],
          attempted := st.attempted ++ [entry.1] } rest
    else
      Except.error (stepPathV1 details kebabTitle entry,
        { st with attempted := st.attempted ++ [entry.1] })

/-- Outcome of one language in v1 `createSolutionFiles` (the fallback-path
materializer, lines 356-381): a file is written only when a snippet matches
(`if (snippet) { ... }`), and any error is caught and logged per language. -/
inductive V1FallbackOp
  | wroteOp
  | noSnippetOp
  | failedOp
deriving DecidableEq

/-- Record of one language in the v1 fallback materializer. -/
structure V1FallbackStep where
  language : List Char
  op : V1FallbackOp
  filePath : List Char
  written : Option (List Char)
deriving DecidableEq

/-- One iteration of the v1 fallback materializer `createSolutionFiles`:
never reads the existing file, and when no snippet matches the language it
writes nothing at all (and reports no error). -/
def fallbackStepV1 (env : List Char → FileView) (details : ProblemDetails)
    (kebabTitle : List Char) (entry : List Char × List Char) : V1FallbackStep :=
  if (env (stepPathV1 details kebabTitle entry)).mkdirOk = false then
    ⟨entry.1, V1FallbackOp.failedOp, stepPathV1 details kebabTitle entry, none⟩
  else
    match details.codeSnippets.find? (fun s => s.langSlug == entry.1) with
    | none =>
      ⟨entry.1, V1FallbackOp.noSnippetOp, stepPathV1 details kebabTitle entry, none⟩
    | some s =>
      if (env (stepPathV1 details kebabTitle entry)).writeOk = true then
        ⟨entry.1, V1FallbackOp.wroteOp, stepPathV1 details kebabTitle entry,
          some (formatProblemFile entry.1 details.content s.code)⟩
      else
        ⟨entry.1, V1FallbackOp.failedOp, stepPathV1 details kebabTitle entry, none⟩

/-- The whole v1 fallback materializer over the catalog. -/
def createSolutionFilesV1 (env : List Char → FileView)
    (details : ProblemDetails) : List V1FallbackStep :=
  LANGUAGE_EXTENSIONS.map (fallbackStepV1 env details (toKebabCase details.title))

/-- The challenge identity tuple (`DailyChallenge` in v2). -/
structure DailyChallenge where
  questionId : List Char
  title : List Char
  titleSlug : List Char
  difficulty : List Char
deriving DecidableEq

/-- Observable phases of one orchestrator run.  `apiAcquire` is the whole
API identity acquisition (CSRF token fetch plus the `questionOfToday`
query); `fallbackAcquire` is the browser-driven fallback; `detailsFetch`
covers the content/snippet queries; `materializePhase` the file loop;
`postHookRun` the external command. -/
inductive OEvent
  | apiAcquire
  | fallbackAcquire
  | detailsFetch
  | materializePhase
  | postHookRun
deriving DecidableEq

/-- Deterministic oracles for one run: what each external step would return.
`none` models the step throwing.  `materializeOk` abstracts whether v1's
unguarded inline write loop throws (v2's loop never throws). -/
structure RunEnv where
  apiIdentity : Option DailyChallenge
  fallbackSlug : Option (List Char)
  problemDetails : Option ProblemDetails
  materializeOk : Bool
  postHookOk : Bool

/-- The `catch` block of v1 `getDailyLeetcodeChallenge` (lines 606-626):
run the Puppeteer fallback, then `createSolutionFiles` (which issues the
content/snippet/question queries); any failure inside becomes the fatal
`Both API and Puppeteer approaches failed` error, exit code 1 via the CLI
`catch`. -/
def fallbackBranchV1 (env : RunEnv) (tr : List OEvent) : Nat × List OEvent :=
  match env.fallbackSlug with
  | none => (1, tr ++ [OEvent.fallbackAcquire])
  | some _ =>
    match env.problemDetails with
    | none => (1, tr ++ [OEvent.fallbackAcquire, OEvent.detailsFetch])
    | some _ =>
      (0, tr ++ [OEvent.fallbackAcquire, OEvent.detailsFetch,
        OEvent.materializePhase])

/-- Control skeleton of v1 `getDailyLeetcodeChallenge` plus its CLI `catch`:
one big `try` around token+identity query, detail queries, the inline file
loop and the post hook (whose own failure is swallowed); ANY failure inside
lands in the single `catch`, which runs the fallback branch. -/
def runV1 (env : RunEnv) : Nat × List OEvent :=
  match env.apiIdentity with
  | none => fallbackBranchV1 env [OEvent.apiAcquire]
  | some _ =>
    match env.problemDetails with
    | none => fallbackBranchV1 env [OEvent.apiAcquire, OEvent.detailsFetch]
    | some _ =>
      if env.materializeOk then
        (0, [OEvent.apiAcquire, OEvent.detailsFetch, OEvent.materializePhase,
          OEvent.postHookRun])
      else
        fallbackBranchV1 env
          [OEvent.apiAcquire, OEvent.detailsFetch, OEvent.materializePhase]

/-- Control skeleton of v2 `LeetCodeDailyChallenge.run` plus its CLI
`catch`: an inner `try` covers only the API acquisition; its `catch` runs
`getDailyChallengeViaPuppeteer` (which internally fetches details); then the
shared tail re-fetches details, materializes (never throws) and runs the
post hook (failure swallowed).  Any uncaught error exits with code 1. -/
def runV2 (env : RunEnv) : Nat × List OEvent :=
  match env.apiIdentity with
  | some _ =>
    match env.problemDetails with
    | none => (1, [OEvent.apiAcquire, OEvent.detailsFetch])
    | some _ =>
      (0, [OEvent.apiAcquire, OEvent.detailsFetch, OEvent.materializePhase,
        OEvent.postHookRun])
  | none =>
    match env.fallbackSlug with
    | none => (1, [OEvent.apiAcquire, OEvent.fallbackAcquire])
    | some _ =>
      match env.problemDetails with
      | none => (1, [OEvent.apiAcquire, OEvent.fallbackAcquire,
          OEvent.detailsFetch])
      | some _ =>
        (0, [OEvent.apiAcquire, OEvent.fallbackAcquire, OEvent.detailsFetch,
          OEvent.detailsFetch, OEvent.materializePhase, OEvent.postHookRun])

/-- Oracles for the browser-driven fallback: whether launching the browser,
opening the page, navigation, waiting for the selector and the detail
queries succeed, and what slug the DOM evaluation finds (`none` = marker
absent, `ExtractionFailed`). -/
structure PuppeteerEnv where
  launchOk : Bool
  newPageOk : Bool
  gotoOk : Bool
  selectorOk : Bool
  extractResult : Option (List Char)
  detailsOk : Bool
deriving DecidableEq

/-- Observable browser-session events. -/
inductive PEvent
  | launch
  | newPage
  | navigate
  | waitSelector
  | extract
  | fetchDetails
  | closePage
  | closeBrowser
deriving DecidableEq

/-- v1 `getDailyLeetcodeChallengeWithPuppeteer` (lines 169-227): `launch`
and `newPage` happen BEFORE the `try`; the `finally { browser.close() }`
only guards the body, so a failing `newPage` leaks the browser. -/
def puppeteerV1 (env : PuppeteerEnv) : Option (List Char) × List PEvent :=
  if env.launchOk = false then (none, [PEvent.launch])
  else if env.newPageOk = false then (none, [PEvent.launch, PEvent.newPage])
  else if env.gotoOk = false then
    (none, [PEvent.launch, PEvent.newPage, PEvent.navigate, PEvent.closeBrowser])
  else if env.selectorOk = false then
    (none, [PEvent.launch, PEvent.newPage, PEvent.navigate, PEvent.waitSelector,
      PEvent.closeBrowser])
  else
    match env.extractResult with
    | none => (none, [PEvent.launch, PEvent.newPage, PEvent.navigate,
        PEvent.waitSelector, PEvent.extract, PEvent.closeBrowser])
    | some slug => (some slug, [PEvent.launch, PEvent.newPage, PEvent.navigate,
        PEvent.waitSelector, PEvent.extract, PEvent.closeBrowser])

/-- v2 `LeetCodeDailyChallenge.getDailyChallengeViaPuppeteer` (lines
1099-1116): `try { initialize; getDailyChallenge; getProblemDetails }
finally { cleanup }`, where `getDailyChallenge` closes its page in its own
`finally` and `cleanup` closes the browser whenever one was launched. -/
def puppeteerV2 (env : PuppeteerEnv) : Option (List Char) × List PEvent :=
  if env.launchOk = false then (none, [PEvent.launch])
  else if env.newPageOk = false then
    (none, [PEvent.launch, PEvent.newPage, PEvent.closeBrowser])
  else if env.gotoOk = false then
    (none, [PEvent.launch, PEvent.newPage, PEvent.navigate, PEvent.closePage,
      PEvent.closeBrowser])
  else if env.selectorOk = false then
    (none, [PEvent.launch, PEvent.newPage, PEvent.navigate, PEvent.waitSelector,
      PEvent.closePage, PEvent.closeBrowser])
  else
    match env.extractResult with
    | none => (none, [PEvent.launch, PEvent.newPage, PEvent.navigate,
        PEvent.waitSelector, PEvent.extract, PEvent.closePage,
        PEvent.closeBrowser])
    | some slug =>
      if env.detailsOk then
        (some slug, [PEvent.launch, PEvent.newPage, PEvent.navigate,
          PEvent.waitSelector, PEvent.extract, PEvent.closePage,
          PEvent.fetchDetails, PEvent.closeBrowser])
      else
        (none, [PEvent.launch, PEvent.newPage, PEvent.navigate,
          PEvent.waitSelector, PEvent.extract, PEvent.closePage,
          PEvent.fetchDetails, PEvent.closeBrowser])

/-- Concrete identity used by the scenario claims: question 42,
"Trapping Rain Water", Hard, no snippets fetched. -/
def exDetails : ProblemDetails where
  content :=
    ("<p>Given n non-negative integers, compute how much water it traps.</p>").toList
  codeSnippets := []
  difficulty := ("Hard").toList
  questionId := ("42").toList
  title := ("Trapping Rain Water").toList
  titleSlug := ("trapping-rain-water").toList

/- ### Helper lemmas about the text normalizer -/

theorem jsToLower_of_slug {c : Char} (h : isSlugChar c = true) :
    jsToLower c = c := by
  simp only [isSlugChar, decide_eq_true_eq] at h
  simp only [jsToLower]
  rw [if_neg]
  omega

theorem jsWs_of_slug {c : Char} (h : isSlugChar c = true) : jsWs c = false := by
  simp only [isSlugChar, decide_eq_true_eq] at h
  simp only [jsWs, decide_eq_false_iff_not]
  omega

theorem collapseWs_eq_self :
    ∀ (b : Bool) (l : List Char), (∀ c ∈ l, jsWs c = false) →
      collapseWs b l = l := by
  intro b l
  induction l generalizing b with
  | nil => intro _; rfl
  | cons c rest ih =>
    intro h
    have hc : jsWs c = false := h c (by simp)
    simp [collapseWs, hc, ih false (fun x hx => h x (by simp [hx]))]

theorem mem_toKebabCase_slug {c : Char} {s : List Char}
    (h : c ∈ toKebabCase s) : isSlugChar c = true :=
  (List.mem_filter.mp h).2

/- ### Helper lemmas about catalog lookup and path disjointness -/

theorem lookup_eq_some_of_mem {α β : Type} [BEq α] [LawfulBEq α] :
    ∀ (l : List (α × β)) (a : α) (b : β),
      (l.map Prod.fst).Nodup → (a, b) ∈ l → List.lookup a l = some b := by
  intro l
  induction l with
  | nil => intro a b _ hmem; cases hmem
  | cons hd tl ih =>
    intro a b hnd hmem
    rcases List.mem_cons.mp hmem with heq | htl
    · rw [← heq]
      simp [List.lookup]
    · have hne : (a == hd.1) = false := by
        rw [beq_eq_false_iff_ne]
        intro hcontra
        have : hd.1 ∈ tl.map Prod.fst := by
          rw [← hcontra]
          exact List.mem_map_of_mem Prod.fst htl
        exact (List.nodup_cons.mp (by simpa using hnd)).1 this
      simp only [List.lookup, hne]
      exact ih a b (List.nodup_cons.mp (by simpa using hnd)).2 htl

theorem slash_free_key_eq :
    ∀ (a b x y : List Char), '/' ∉ a → '/' ∉ b →
      a ++ '/' :: x = b ++ '/' :: y → a = b := by
  intro a
  induction a with
  | nil =>
    intro b x y _ hb heq
    cases b with
    | nil => rfl
    | cons d ds =>
      exfalso
      apply hb
      simp only [List.nil_append, List.cons_append, List.cons.injEq] at heq
      rw [heq.1]
      exact List.mem_cons_self d ds
  | cons c cs ih =>
    intro b x y ha hb heq
    cases b with
    | nil =>
      exfalso
      apply ha
      simp only [List.cons_append, List.nil_append, List.cons.injEq] at heq
      rw [← heq.1]
      exact List.mem_cons_self c cs
    | cons d ds =>
      simp only [List.cons_append, List.cons.injEq] at heq
      have hcs := ih ds x y (fun hx => ha (by simp [hx]))
        (fun hx => hb (by simp [hx])) heq.2
      rw [heq.1, hcs]

/- ### Claim C6 -/

/-- C6: for every title string T, `toKebabCase` (the spec's slugify) is
idempotent, and its output contains only lowercase ASCII letters, digits and
hyphens (`^[a-z0-9-]*$`). -/
theorem c6_slugify_idempotent_charset (s : List Char) :
    toKebabCase (toKebabCase s) = toKebabCase s
    ∧ (toKebabCase s).all isSlugChar = true := by
  have hmem : ∀ c ∈ toKebabCase s, isSlugChar c = true :=
    fun c hc => mem_toKebabCase_slug hc
  constructor
  · have h1 : (toKebabCase s).map jsToLower = toKebabCase s := by
      conv_rhs => rw [← List.map_id (toKebabCase s)]
      exact List.map_congr_left (fun c hc => jsToLower_of_slug (hmem c hc))
    have h2 : collapseWs false (toKebabCase s) = toKebabCase s :=
      collapseWs_eq_self false _ (fun c hc => jsWs_of_slug (hmem c hc))
    show (collapseWs false ((toKebabCase s).map jsToLower)).filter isSlugChar
        = toKebabCase s
    rw [h1, h2]
    exact List.filter_eq_self.mpr hmem
  · exact List.all_eq_true.mpr hmem

/- ### Claim C5 -/

/-- C5: slugify of "Trapping Rain Water" is "trapping-rain-water"; the
resolved python path for question 42 (difficulty Hard) is
`python/hard/42-trapping-rain-water.py`; and in general every catalog
language's path is `language/difficulty-lowercased/questionId-slug.ext`,
except dart which joins the lowercase words (and the question id) with
underscores. -/
theorem c5_paths :
    toKebabCase (("Trapping Rain Water").toList) = ("trapping-rain-water").toList
    ∧ stepPath exDetails (toKebabCase exDetails.title) (("python").toList)
        = ("python/hard/42-trapping-rain-water.py").toList
    ∧ (∀ (details : ProblemDetails) (entry : List Char × List Char),
        entry ∈ LANGUAGE_EXTENSIONS →
        entry.1 ≠ ("dart").toList →
        stepPath details (toKebabCase details.title) entry.1 =
          entry.1 ++ '/' :: (details.difficulty.map jsToLower) ++
            '/' :: (details.questionId ++ '-' :: toKebabCase details.title ++
              '.' :: entry.2))
    ∧ (∀ details : ProblemDetails,
        stepPath details (toKebabCase details.title) (("dart").toList) =
          ("dart").toList ++ '/' :: (details.difficulty.map jsToLower) ++
            '/' :: (details.questionId ++
              '_' :: underscoreKebab (toKebabCase details.title) ++
              '.' :: ("dart").toList)) := by
  refine ⟨by decide, by decide, ?_, ?_⟩
  · intro details entry hmem hne
    have hlk : List.lookup entry.1 LANGUAGE_EXTENSIONS = some entry.2 :=
      lookup_eq_some_of_mem LANGUAGE_EXTENSIONS entry.1 entry.2 (by decide)
        (by simpa using hmem)
    have hbeq : (entry.1 == ("dart").toList) = false :=
      beq_eq_false_iff_ne.mpr hne
    simp only [stepPath, slashJoin, getFileName, hlk, List.append_assoc]
    rw [hbeq]
    simp [List.append_assoc]
  · intro details
    have h1 : ((("dart").toList : List Char) == ("dart").toList) = true := by
      decide
    have hlkd : List.lookup (("dart").toList) LANGUAGE_EXTENSIONS
        = some (("dart").toList) := by decide
    simp only [stepPath, slashJoin, getFileName, h1, if_true, hlkd,
      List.append_assoc]

/-- Witness for C5's quantified clauses: the general rule evaluated at the
scenario identity for python and for dart. -/
theorem c5_paths_witness :
    stepPath exDetails (toKebabCase exDetails.title) (("python").toList) =
      ("python").toList ++ '/' :: (exDetails.difficulty.map jsToLower) ++
        '/' :: (exDetails.questionId ++ '-' :: toKebabCase exDetails.title ++
          '.' :: ("py").toList)
    ∧ stepPath exDetails (toKebabCase exDetails.title) (("dart").toList) =
      ("dart").toList ++ '/' :: (exDetails.difficulty.map jsToLower) ++
        '/' :: (exDetails.questionId ++
          '_' :: underscoreKebab (toKebabCase exDetails.title) ++
          '.' :: ("dart").toList) :=
  ⟨c5_paths.2.2.1 exDetails ((("python").toList), (("py").toList))
      (by decide) (by decide),
   c5_paths.2.2.2 exDetails⟩

/- ### Claim C1 -/

/-- Filesystem oracle with no pre-existing files and reliable mkdir/write. -/
def envFresh : List Char → FileView :=
  fun _ => ⟨false, none, true, true⟩

/-- The comment-only python placeholder the tool itself produces for the
scenario problem when no snippet matches: the problem statement between
`\"\"\"` delimiters, a blank line, and an empty template. -/
def pyCommentOnly : List Char :=
  solutionContent exDetails (("python").toList)

/-- Filesystem oracle where the python target already holds
`pyCommentOnly` (whitespace and comment-delimited text only) and every
operation succeeds. -/
def envPySkip : List Char → FileView :=
  fun p =>
    if p == ("python/hard/42-trapping-rain-water.py").toList then
      ⟨true, some pyCommentOnly, true, true⟩
    else ⟨false, none, true, true⟩

/-- C1 counterexample: the pre-existing python file contains only whitespace
and comment-delimited text (it is exactly the tool's own comment-only
placeholder, problem text between `\"\"\"` delimiters), yet the scanner
classifies it as substantive content and the materializer SKIPS it with no
write — the claim demands Updated, never Skipped, for such a file. -/
theorem c1_counterexample :
    hasNonCommentContent (some pyCommentOnly) = true
    ∧ (processLanguage envPySkip exDetails (toKebabCase exDetails.title)
        ((("python").toList), (("py").toList))).outcome = FileOp.skippedOp
    ∧ (processLanguage envPySkip exDetails (toKebabCase exDetails.title)
        ((("python").toList), (("py").toList))).written = none := by
  refine ⟨by decide, by decide, by decide⟩

/-- C1 amended: a target is skipped iff it already exists AND the
language-agnostic scanner (`hasNonCommentContent`) finds a line that is
non-blank, outside a `/* ... */` block, does not start with `//`, `#`,
`=begin` or `=end`, and is not exactly `\"\"\"`; a skipped language is never
written.  (For languages with `/* ... */` comments this coincides with
"comment syntax for that language", but python or ruby comment bodies count
as content, so comment-only python/ruby files are skipped, not updated.) -/
theorem c1_amended_skip_iff_scanner (env : List Char → FileView)
    (details : ProblemDetails) (kebabTitle : List Char)
    (entry : List Char × List Char) :
    ((processLanguage env details kebabTitle entry).outcome = FileOp.skippedOp ↔
      ((env (stepPath details kebabTitle entry.1)).present = true ∧
        hasNonCommentContent
          (env (stepPath details kebabTitle entry.1)).readResult = true))
    ∧ ((processLanguage env details kebabTitle entry).outcome = FileOp.skippedOp →
        (processLanguage env details kebabTitle entry).written = none) := by
  unfold processLanguage
  split_ifs with h1 h2 h3 h4 <;> simp_all

/-- Witness for C1's amended rule: with no pre-existing file the python step
is not Skipped, matching the scanner condition being false. -/
theorem c1_amended_witness :
    ((processLanguage envFresh exDetails (toKebabCase exDetails.title)
        ((("python").toList), (("py").toList))).outcome = FileOp.skippedOp ↔
      ((envFresh (stepPath exDetails (toKebabCase exDetails.title)
          (("python").toList))).present = true ∧
        hasNonCommentContent
          (envFresh (stepPath exDetails (toKebabCase exDetails.title)
            (("python").toList))).readResult = true))
    ∧ ((processLanguage envFresh exDetails (toKebabCase exDetails.title)
        ((("python").toList), (("py").toList))).outcome = FileOp.skippedOp →
        (processLanguage envFresh exDetails (toKebabCase exDetails.title)
          ((("python").toList), (("py").toList))).written = none) :=
  c1_amended_skip_iff_scanner envFresh exDetails (toKebabCase exDetails.title)
    ((("python").toList), (("py").toList))

/- ### Claim C9 -/

/-- C9: when reading the existing file fails (modelled by `readResult =
none`), both classifiers report "no substantive content", and the v2
materializer overwrites the file (outcome Updated, with a write) instead of
skipping it. -/
theorem c9_read_failure_overwrites :
    (hasNonCommentContent none = false ∧ hasContent none = false)
    ∧ ∀ (env : List Char → FileView) (details : ProblemDetails)
        (kebabTitle : List Char) (entry : List Char × List Char),
        (env (stepPath details kebabTitle entry.1)).readResult = none →
        (env (stepPath details kebabTitle entry.1)).present = true →
        (env (stepPath details kebabTitle entry.1)).mkdirOk = true →
        (env (stepPath details kebabTitle entry.1)).writeOk = true →
        (processLanguage env details kebabTitle entry).outcome = FileOp.updatedOp
        ∧ (processLanguage env details kebabTitle entry).written =
            some (solutionContent details entry.1) := by
  refine ⟨⟨rfl, rfl⟩, ?_⟩
  intro env details kebabTitle entry hread hpresent hmkdir hwrite
  unfold processLanguage
  rw [hread]
  split_ifs with h1 h2 h3 h4 <;> simp_all [hasNonCommentContent]

/-- Filesystem oracle where every file "exists" but every read fails. -/
def envReadFail : List Char → FileView :=
  fun _ => ⟨true, none, true, true⟩

/-- Witness for C9 at the scenario identity and python. -/
theorem c9_read_failure_overwrites_witness :
    (processLanguage envReadFail exDetails (toKebabCase exDetails.title)
        ((("python").toList), (("py").toList))).outcome = FileOp.updatedOp
    ∧ (processLanguage envReadFail exDetails (toKebabCase exDetails.title)
        ((("python").toList), (("py").toList))).written =
        some (solutionContent exDetails (("python").toList)) :=
  c9_read_failure_overwrites.2 envReadFail exDetails
    (toKebabCase exDetails.title) ((("python").toList), (("py").toList))
    rfl rfl rfl rfl

/- ### Claim C4 -/

/-- C4 counterexample: in the v1 fallback-path materializer
`createSolutionFiles` (the one run after the Puppeteer fallback), a language
with no matching snippet gets NO file at all — `if (snippet)` guards the
write — refuting "materialize still writes a file for that language".  With
the scenario identity (no snippets fetched) not a single write happens, yet
no error is reported either. -/
theorem c4_counterexample :
    (fallbackStepV1 envFresh exDetails (toKebabCase exDetails.title)
        ((("python").toList), (("py").toList))).op = V1FallbackOp.noSnippetOp
    ∧ (fallbackStepV1 envFresh exDetails (toKebabCase exDetails.title)
        ((("python").toList), (("py").toList))).written = none
    ∧ (createSolutionFilesV1 envFresh exDetails).filter
        (fun st => st.written.isSome) = [] := by
  refine ⟨by decide, by decide, by decide⟩

/-- C4 amended: in the v2 materializer (`FileManager.createSolutionFiles`),
a language with no matching snippet still gets a file: the comment-wrapped
problem statement followed by the empty template, and snippet absence never
produces an error (the v1 fallback materializer instead writes nothing for
such a language). -/
theorem c4_amended_placeholder (env : List Char → FileView)
    (details : ProblemDetails) (kebabTitle : List Char)
    (entry : List Char × List Char)
    (hsnip : details.codeSnippets.find? (fun s => s.langSlug == entry.1) = none)
    (hskip : ¬((env (stepPath details kebabTitle entry.1)).present = true ∧
        hasNonCommentContent
          (env (stepPath details kebabTitle entry.1)).readResult = true))
    (hmkdir : (env (stepPath details kebabTitle entry.1)).mkdirOk = true)
    (hwrite : (env (stepPath details kebabTitle entry.1)).writeOk = true) :
    (processLanguage env details kebabTitle entry).written =
      some (formatProblemFile entry.1 details.content [])
    ∧ (processLanguage env details kebabTitle entry).outcome ≠ FileOp.errorOp := by
  have hsc : snippetCode details entry.1 = [] := by
    unfold snippetCode
    rw [hsnip]
  unfold processLanguage
  split_ifs with h1 h2 h3 h4 <;>
    simp_all [solutionContent, hsc]

/-- Witness for C4's amended statement: a fresh run writes the comment-only
python placeholder. -/
theorem c4_amended_placeholder_witness :
    (processLanguage envFresh exDetails (toKebabCase exDetails.title)
        ((("python").toList), (("py").toList))).written =
      some (formatProblemFile (("python").toList) exDetails.content [])
    ∧ (processLanguage envFresh exDetails (toKebabCase exDetails.title)
        ((("python").toList), (("py").toList))).outcome ≠ FileOp.errorOp :=
  c4_amended_placeholder envFresh exDetails (toKebabCase exDetails.title)
    ((("python").toList), (("py").toList)) (by decide) (by decide) rfl rfl

/- ### Claim C2 -/

/-- C2: in both versions, when the API identity acquisition fails the run
invokes the browser fallback exactly once, never re-attempts the API
identity acquisition, and exits with code 1 when the fallback also fails. -/
theorem c2_fallback_once (env : RunEnv) (hapi : env.apiIdentity = none) :
    ((runV1 env).2.count OEvent.fallbackAcquire = 1
      ∧ (runV1 env).2.count OEvent.apiAcquire = 1
      ∧ (env.fallbackSlug = none → (runV1 env).1 = 1))
    ∧ ((runV2 env).2.count OEvent.fallbackAcquire = 1
      ∧ (runV2 env).2.count OEvent.apiAcquire = 1
      ∧ (env.fallbackSlug = none → (runV2 env).1 = 1)) := by
  obtain ⟨api, fb, pd, m, ph⟩ := env
  simp only at hapi
  subst hapi
  cases fb <;> cases pd <;>
    simp [runV1, runV2, fallbackBranchV1, List.count_cons, List.count_nil]

/-- Oracle where both acquisition paths fail. -/
def envBothFail : RunEnv :=
  ⟨none, none, none, true, true⟩

/-- Witness for C2: with both paths failing, each version runs the fallback
exactly once and exits non-zero. -/
theorem c2_fallback_once_witness :
    (runV1 envBothFail).2.count OEvent.fallbackAcquire = 1
    ∧ (runV1 envBothFail).1 = 1
    ∧ (runV2 envBothFail).2.count OEvent.fallbackAcquire = 1
    ∧ (runV2 envBothFail).1 = 1 :=
  ⟨(c2_fallback_once envBothFail rfl).1.1,
   (c2_fallback_once envBothFail rfl).1.2.2 rfl,
   (c2_fallback_once envBothFail rfl).2.1,
   (c2_fallback_once envBothFail rfl).2.2.2 rfl⟩

/- ### Claim C8 -/

/-- Browser oracle where launching succeeds but opening the page fails. -/
def envNewPageFail : PuppeteerEnv :=
  ⟨true, false, true, true, some (("two-sum").toList), true⟩

/-- C8 counterexample: in the v1 fallback the browser is launched and
`newPage` fails BEFORE the `try`/`finally`, so the fallback returns (throws)
without ever closing the browser — a failure path with no teardown. -/
theorem c8_counterexample :
    (puppeteerV1 envNewPageFail).1 = none
    ∧ PEvent.closeBrowser ∉ (puppeteerV1 envNewPageFail).2
    ∧ PEvent.launch ∈ (puppeteerV1 envNewPageFail).2 := by
  refine ⟨by decide, by decide, by decide⟩

/-- C8 amended: teardown is guaranteed on success and on every failure path
that arises after the page is created in v1, and on every path whatsoever
(once the browser is launched) in v2, whose `cleanup` runs in a `finally`;
what fails is only v1's page-creation step, which leaks the browser. -/
theorem c8_amended_teardown (env : PuppeteerEnv) :
    (env.launchOk = true → env.newPageOk = true →
      PEvent.closeBrowser ∈ (puppeteerV1 env).2)
    ∧ (env.launchOk = true → PEvent.closeBrowser ∈ (puppeteerV2 env).2) := by
  obtain ⟨l, np, g, sel, ex, d⟩ := env
  cases l <;> cases np <;> cases g <;> cases sel <;> cases ex <;> cases d <;>
    simp [puppeteerV1, puppeteerV2]

/-- Browser oracle where everything succeeds. -/
def envBrowserOk : PuppeteerEnv :=
  ⟨true, true, true, true, some (("two-sum").toList), true⟩

/-- Witness for C8's amended statement on the all-success path. -/
theorem c8_amended_teardown_witness :
    PEvent.closeBrowser ∈ (puppeteerV1 envBrowserOk).2
    ∧ PEvent.closeBrowser ∈ (puppeteerV2 envBrowserOk).2 :=
  ⟨(c8_amended_teardown envBrowserOk).1 rfl rfl,
   (c8_amended_teardown envBrowserOk).2 rfl⟩

/- ### Helper lemmas for the outcome lists (claims C3, C10) -/

theorem processLanguage_filePath (env : List Char → FileView)
    (details : ProblemDetails) (kebabTitle : List Char)
    (entry : List Char × List Char) :
    (processLanguage env details kebabTitle entry).filePath =
      stepPath details kebabTitle entry.1 := by
  unfold processLanguage
  split_ifs <;> rfl

theorem processLanguage_written_iff (env : List Char → FileView)
    (details : ProblemDetails) (kebabTitle : List Char)
    (entry : List Char × List Char) :
    (processLanguage env details kebabTitle entry).written.isSome = true ↔
      ((processLanguage env details kebabTitle entry).outcome = FileOp.createdOp
        ∨ (processLanguage env details kebabTitle entry).outcome =
            FileOp.updatedOp) := by
  unfold processLanguage
  split_ifs <;> simp

theorem mem_collect_created (steps : List StepResult) (p : List Char) :
    p ∈ (collectOutcomes steps).created ↔
      ∃ st, st ∈ steps ∧ st.outcome = FileOp.createdOp ∧ st.filePath = p := by
  induction steps with
  | nil => simp [collectOutcomes]
  | cons st rest ih =>
    cases h : st.outcome <;>
      simp [collectOutcomes, h, ih, List.mem_cons] <;>
      aesop

theorem mem_collect_updated (steps : List StepResult) (p : List Char) :
    p ∈ (collectOutcomes steps).updated ↔
      ∃ st, st ∈ steps ∧ st.outcome = FileOp.updatedOp ∧ st.filePath = p := by
  induction steps with
  | nil => simp [collectOutcomes]
  | cons st rest ih =>
    cases h : st.outcome <;>
      simp [collectOutcomes, h, ih, List.mem_cons] <;>
      aesop

theorem mem_collect_skipped (steps : List StepResult) (p : List Char) :
    p ∈ (collectOutcomes steps).skipped ↔
      ∃ st, st ∈ steps ∧ st.outcome = FileOp.skippedOp ∧ st.filePath = p := by
  induction steps with
  | nil => simp [collectOutcomes]
  | cons st rest ih =>
    cases h : st.outcome <;>
      simp [collectOutcomes, h, ih, List.mem_cons] <;>
      aesop

/-- The fourteen step paths of one v2 run are pairwise distinct: each starts
with its (slash-free, pairwise distinct) language key followed by a slash. -/
theorem stepPaths_nodup (env : List Char → FileView) (details : ProblemDetails)
    (kebabTitle : List Char) :
    ((LANGUAGE_EXTENSIONS.map (processLanguage env details kebabTitle)).map
      StepResult.filePath).Nodup := by
  rw [List.map_map]
  have heq : (StepResult.filePath ∘ processLanguage env details kebabTitle) =
      fun entry => stepPath details kebabTitle entry.1 := by
    funext entry
    exact processLanguage_filePath env details kebabTitle entry
  rw [heq]
  apply List.Nodup.map_on ?_ (by decide)
  intro x hx y hy hxy
  have hall : ∀ e ∈ LANGUAGE_EXTENSIONS, '/' ∉ e.1 := by decide
  have hxs : '/' ∉ x.1 := hall x hx
  have hys : '/' ∉ y.1 := hall y hy
  have hkey : x.1 = y.1 := by
    apply slash_free_key_eq x.1 y.1 _ _ hxs hys
    simpa [stepPath, slashJoin, List.append_assoc] using hxy
  have hmap : (LANGUAGE_EXTENSIONS.map Prod.fst).Nodup := by decide
  exact List.inj_on_of_nodup_map hmap hx hy hkey

/- ### Claim C10 -/

/-- C10 amended: in v2 `FileManager.createSolutionFiles` the three outcome
lists partition the processed languages — every step's path lies in at most
one of `created`/`updated`/`skipped` — and a successful write happens for a
language if and only if its path ends up in `created` or `updated`.  (In
v1's inline API-path loop this fails: a write failure aborts the loop after
the path was already pushed to the updated list, see the counterexample.) -/
theorem c10_amended_partition (env : List Char → FileView)
    (details : ProblemDetails) (st : StepResult)
    (hst : st ∈ (createSolutionFiles env details).2) :
    ((st.written.isSome = true) ↔
      (st.filePath ∈ (createSolutionFiles env details).1.created
        ∨ st.filePath ∈ (createSolutionFiles env details).1.updated))
    ∧ ¬(st.filePath ∈ (createSolutionFiles env details).1.created
        ∧ st.filePath ∈ (createSolutionFiles env details).1.updated)
    ∧ ¬(st.filePath ∈ (createSolutionFiles env details).1.created
        ∧ st.filePath ∈ (createSolutionFiles env details).1.skipped)
    ∧ ¬(st.filePath ∈ (createSolutionFiles env details).1.updated
        ∧ st.filePath ∈ (createSolutionFiles env details).1.skipped) := by
  simp only [createSolutionFiles] at hst ⊢
  have hnd := stepPaths_nodup env details (toKebabCase details.title)
  have huniq : ∀ a ∈ LANGUAGE_EXTENSIONS.map
        (processLanguage env details (toKebabCase details.title)),
      ∀ b ∈ LANGUAGE_EXTENSIONS.map
        (processLanguage env details (toKebabCase details.title)),
      a.filePath = b.filePath → a = b :=
    fun a ha b hb h => List.inj_on_of_nodup_map hnd ha hb h
  obtain ⟨entry, hentry, hsteq⟩ := List.mem_map.mp hst
  have hwiff : st.written.isSome = true ↔
      (st.outcome = FileOp.createdOp ∨ st.outcome = FileOp.updatedOp) := by
    rw [← hsteq]
    exact processLanguage_written_iff env details (toKebabCase details.title)
      entry
  refine ⟨?_, ?_, ?_, ?_⟩
  · constructor
    · intro hw
      rcases hwiff.mp hw with hout | hout
      · exact Or.inl ((mem_collect_created _ _).mpr ⟨st, hst, hout, rfl⟩)
      · exact Or.inr ((mem_collect_updated _ _).mpr ⟨st, hst, hout, rfl⟩)
    · intro hmem
      apply hwiff.mpr
      rcases hmem with hmem | hmem
      · obtain ⟨st2, hst2, hout2, hfp2⟩ := (mem_collect_created _ _).mp hmem
        rw [← huniq st2 hst2 st hst hfp2]
        exact Or.inl hout2
      · obtain ⟨st2, hst2, hout2, hfp2⟩ := (mem_collect_updated _ _).mp hmem
        rw [← huniq st2 hst2 st hst hfp2]
        exact Or.inr hout2
  · rintro ⟨hc, hu⟩
    obtain ⟨st2, hst2, hout2, hfp2⟩ := (mem_collect_created _ _).mp hc
    obtain ⟨st3, hst3, hout3, hfp3⟩ := (mem_collect_updated _ _).mp hu
    have : st2 = st3 := huniq st2 hst2 st3 hst3 (by rw [hfp2, hfp3])
    rw [this, hout3] at hout2
    cases hout2
  · rintro ⟨hc, hk⟩
    obtain ⟨st2, hst2, hout2, hfp2⟩ := (mem_collect_created _ _).mp hc
    obtain ⟨st3, hst3, hout3, hfp3⟩ := (mem_collect_skipped _ _).mp hk
    have : st2 = st3 := huniq st2 hst2 st3 hst3 (by rw [hfp2, hfp3])
    rw [this, hout3] at hout2
    cases hout2
  · rintro ⟨hu, hk⟩
    obtain ⟨st2, hst2, hout2, hfp2⟩ := (mem_collect_updated _ _).mp hu
    obtain ⟨st3, hst3, hout3, hfp3⟩ := (mem_collect_skipped _ _).mp hk
    have : st2 = st3 := huniq st2 hst2 st3 hst3 (by rw [hfp2, hfp3])
    rw [this, hout3] at hout2
    cases hout2

/-- Witness for C10's amended statement: the fresh python step writes, and
its path lands in `created` only. -/
theorem c10_amended_partition_witness :
    (((processLanguage envFresh exDetails (toKebabCase exDetails.title)
        ((("python").toList), (("py").toList))).written.isSome = true) ↔
      ((processLanguage envFresh exDetails (toKebabCase exDetails.title)
          ((("python").toList), (("py").toList))).filePath ∈
          (createSolutionFiles envFresh exDetails).1.created
        ∨ (processLanguage envFresh exDetails (toKebabCase exDetails.title)
            ((("python").toList), (("py").toList))).filePath ∈
            (createSolutionFiles envFresh exDetails).1.updated))
    ∧ ¬((processLanguage envFresh exDetails (toKebabCase exDetails.title)
          ((("python").toList), (("py").toList))).filePath ∈
          (createSolutionFiles envFresh exDetails).1.created
        ∧ (processLanguage envFresh exDetails (toKebabCase exDetails.title)
            ((("python").toList), (("py").toList))).filePath ∈
            (createSolutionFiles envFresh exDetails).1.updated) :=
  ⟨(c10_amended_partition envFresh exDetails _
      (List.mem_map_of_mem _ (by decide))).1,
   (c10_amended_partition envFresh exDetails _
      (List.mem_map_of_mem _ (by decide))).2.1⟩

/-- Filesystem oracle for the C10 counterexample: the python target exists
and is empty (so v1 classifies it as replaceable), but writing it fails;
every other path is fresh and writable. -/
def envPyEmptyWriteFail : List Char → FileView :=
  fun p =>
    if p == ("python/hard/42-trapping-rain-water.py").toList then
      ⟨true, some [], true, false⟩
    else ⟨false, none, true, true⟩

/-- C10 counterexample (v1 inline loop): the failing write aborts the loop
AFTER the python path was pushed onto the updated (`existingFiles`) list, so
a path ends up recorded as Updated although no write to disk happened —
refuting "a write is performed iff the path ends up in created or
updated". -/
theorem c10_counterexample :
    loopV1 envPyEmptyWriteFail exDetails (toKebabCase exDetails.title)
      ⟨[], [], [], [], []⟩ LANGUAGE_EXTENSIONS =
      Except.error ((("python/hard/42-trapping-rain-water.py").toList),
        ⟨[("python/hard/42-trapping-rain-water.py").toList], [], [], [],
          [("python").toList]⟩)
    ∧ (("python/hard/42-trapping-rain-water.py").toList) ∈
        (V1State.mk [("python/hard/42-trapping-rain-water.py").toList]
          [] [] [] [("python").toList]).existingFiles
    ∧ (V1State.mk [("python/hard/42-trapping-rain-water.py").toList]
          [] [] [] [("python").toList]).writtenPaths = [] := by
  refine ⟨by rfl, by decide, rfl⟩

/- ### Claim C3 -/

/-- C3 amended: in v2 `FileManager.createSolutionFiles` a per-language
failure is isolated — the whole catalog is always processed (one step record
per catalog entry), and a language whose step failed appears in none of the
three outcome lists, i.e. it is omitted from the tally while the other
languages proceed.  (In v1's inline API-path loop this fails: an unguarded
`fs.writeFile` failure aborts the whole batch, see the counterexample.) -/
theorem c3_amended_isolation (env : List Char → FileView)
    (details : ProblemDetails) :
    ((createSolutionFiles env details).2.length = LANGUAGE_EXTENSIONS.length)
    ∧ ∀ st ∈ (createSolutionFiles env details).2,
        st.outcome = FileOp.errorOp →
        st.filePath ∉ (createSolutionFiles env details).1.created
        ∧ st.filePath ∉ (createSolutionFiles env details).1.updated
        ∧ st.filePath ∉ (createSolutionFiles env details).1.skipped := by
  constructor
  · simp [createSolutionFiles]
  · intro st hst herr
    simp only [createSolutionFiles] at hst ⊢
    have hnd := stepPaths_nodup env details (toKebabCase details.title)
    have huniq : ∀ a ∈ LANGUAGE_EXTENSIONS.map
          (processLanguage env details (toKebabCase details.title)),
        ∀ b ∈ LANGUAGE_EXTENSIONS.map
          (processLanguage env details (toKebabCase details.title)),
        a.filePath = b.filePath → a = b :=
      fun a ha b hb h => List.inj_on_of_nodup_map hnd ha hb h
    refine ⟨?_, ?_, ?_⟩
    · intro hc
      obtain ⟨st2, hst2, hout2, hfp2⟩ := (mem_collect_created _ _).mp hc
      rw [huniq st2 hst2 st hst hfp2, herr] at hout2
      cases hout2
    · intro hu
      obtain ⟨st2, hst2, hout2, hfp2⟩ := (mem_collect_updated _ _).mp hu
      rw [huniq st2 hst2 st hst hfp2, herr] at hout2
      cases hout2
    · intro hk
      obtain ⟨st2, hst2, hout2, hfp2⟩ := (mem_collect_skipped _ _).mp hk
      rw [huniq st2 hst2 st hst hfp2, herr] at hout2
      cases hout2

/-- Filesystem oracle where every mkdir fails (fresh directories are
impossible), making every v2 step an error. -/
def envMkdirFail : List Char → FileView :=
  fun _ => ⟨false, none, false, true⟩

/-- Witness for C3's amended statement: with a failing mkdir the python step
errors yet the whole catalog is still processed, and the failed path is in
no outcome list. -/
theorem c3_amended_isolation_witness :
    (createSolutionFiles envMkdirFail exDetails).2.length =
      LANGUAGE_EXTENSIONS.length
    ∧ (processLanguage envMkdirFail exDetails (toKebabCase exDetails.title)
        ((("python").toList), (("py").toList))).filePath ∉
        (createSolutionFiles envMkdirFail exDetails).1.created :=
  ⟨(c3_amended_isolation envMkdirFail exDetails).1,
   ((c3_amended_isolation envMkdirFail exDetails).2 _
      (List.mem_map_of_mem _ (by decide)) (by decide)).1⟩

/-- Filesystem oracle for the C3 counterexample: the python target does not
exist, its directory can be created, but the write fails; everything else
would succeed. -/
def envPyWriteFail : List Char → FileView :=
  fun p =>
    if p == ("python/hard/42-trapping-rain-water.py").toList then
      ⟨false, none, true, false⟩
    else ⟨false, none, true, true⟩

/-- C3 counterexample (v1 inline loop): python is the first catalog entry;
its failing write aborts the whole batch — the loop stops having attempted
only one of the fourteen languages (and the error then propagates to the
outer catch, triggering the Puppeteer fallback, so it is not even confined
to the loop) — refuting "a single write failure never aborts the batch". -/
theorem c3_counterexample :
    loopV1 envPyWriteFail exDetails (toKebabCase exDetails.title)
      ⟨[], [], [], [], []⟩ LANGUAGE_EXTENSIONS =
      Except.error ((("python/hard/42-trapping-rain-water.py").toList),
        ⟨[], [], [], [], [("python").toList]⟩)
    ∧ 1 < LANGUAGE_EXTENSIONS.length := by
  refine ⟨by rfl, by decide⟩

/- ### Helper lemmas for the tag stripper and entity decoder (claim C7) -/

theorem stripTagsAux_pending :
    ∀ (inner buf post : List Char), (∀ c ∈ inner, c ≠ '>') →
      (buf ≠ [] ∨ inner ≠ []) →
      stripTagsAux (some buf) (inner ++ '>' :: post) = stripTagsAux none post := by
  intro inner
  induction inner with
  | nil =>
    intro buf post _ hne
    cases buf with
    | nil =>
      rcases hne with h | h
      · exact absurd rfl h
      · exact absurd rfl h
    | cons b bs => simp [stripTagsAux]
  | cons i is ih =>
    intro buf post hgt _
    have hi : ¬(i = '>') := hgt i (by simp)
    show stripTagsAux (some buf) (i :: (is ++ '>' :: post)) = _
    simp only [stripTagsAux, if_neg hi]
    exact ih (i :: buf) post (fun c hc => hgt c (by simp [hc]))
      (Or.inl (by simp))

theorem stripTagsAux_plain :
    ∀ (pre rest : List Char), (∀ c ∈ pre, c ≠ '<') →
      stripTagsAux none (pre ++ rest) = pre ++ stripTagsAux none rest := by
  intro pre
  induction pre with
  | nil => intro rest _; rfl
  | cons c cs ih =>
    intro rest h
    have hc : ¬(c = '<') := h c (by simp)
    show stripTagsAux none (c :: (cs ++ rest)) = _
    simp only [stripTagsAux, if_neg hc, List.cons_append]
    rw [ih rest (fun x hx => h x (by simp [hx]))]

theorem replaceAllFuel_eq_self (p : Char) (ps rep : List Char) :
    ∀ (fuel : Nat) (s : List Char), occursIn (p :: ps) s = false →
      replaceAllFuel p ps rep fuel s = s := by
  intro fuel
  induction fuel with
  | zero => intro s _; cases s <;> rfl
  | succ f ih =>
    intro s hocc
    cases s with
    | nil => rfl
    | cons c rest =>
      simp only [occursIn, Bool.or_eq_false_iff] at hocc
      simp only [replaceAllFuel]
      rw [if_neg, ih rest hocc.2]
      rintro ⟨h1, h2⟩
      have := hocc.1
      simp [List.isPrefixOf, h1, h2] at this

theorem replaceAll_eq_self (p : Char) (ps rep s : List Char)
    (h : occursIn (p :: ps) s = false) : replaceAll p ps rep s = s :=
  replaceAllFuel_eq_self p ps rep s.length s h

theorem decodeEntities_eq_self (s : List Char) (h : noEntityOcc s = true) :
    decodeEntities s = s := by
  simp only [noEntityOcc, entityPatterns, List.all_cons, List.all_nil,
    Bool.and_eq_true, Bool.not_eq_true'] at h
  obtain ⟨h1, h2, h3, h4, h5, h6, -⟩ := h
  unfold decodeEntities
  rw [replaceAll_eq_self '&' (("nbsp;").toList) [' '] s h1,
    replaceAll_eq_self '&' (("lt;").toList) ['<'] s h2,
    replaceAll_eq_self '&' (("gt;").toList) ['>'] s h3,
    replaceAll_eq_self '&' (("quot;").toList) ['"'] s h4,
    replaceAll_eq_self '&' (("#39;").toList) ['\''] s h5,
    replaceAll_eq_self '&' (("amp;").toList) ['&'] s h6]

/- ### Claim C7 -/

/-- C7: no `<` or `>` of a stripped tag survives into the output of
`htmlToText` (the spec's markupToPlainText).  Formally: (a) a complete tag
— `<`, a nonempty `>`-free body, `>` — encountered by the stripper
contributes nothing at all to the stripped text; (b) text outside any tag
passes through unchanged, so the stripped text consists exactly of the
characters outside stripped tags; and (c) whenever the stripped text
contains none of the six entity patterns (in particular for inputs without
entities whose stripping cannot assemble one), the rest of the pipeline only
trims whitespace, so the final output contains no characters other than the
stripped text's. -/
theorem c7_no_brackets_from_tags :
    (∀ (inner post : List Char), inner ≠ [] → (∀ c ∈ inner, c ≠ '>') →
      stripTags ('<' :: (inner ++ '>' :: post)) = stripTags post)
    ∧ (∀ (pre rest : List Char), (∀ c ∈ pre, c ≠ '<') →
      stripTags (pre ++ rest) = pre ++ stripTags rest)
    ∧ (∀ html : List Char, noEntityOcc (stripTags html) = true →
      htmlToText html = trimJs (stripTags html)) := by
  refine ⟨?_, ?_, ?_⟩
  · intro inner post hne hgt
    show stripTagsAux none ('<' :: (inner ++ '>' :: post)) = _
    simp only [stripTagsAux, if_pos rfl]
    exact stripTagsAux_pending inner [] post hgt (Or.inr hne)
  · intro pre rest h
    exact stripTagsAux_plain pre rest h
  · intro html h
    show trimJs (decodeEntities (stripTags html)) = trimJs (stripTags html)
    rw [decodeEntities_eq_self _ h]

/-- Witness for C7: a stripped `<em>` tag contributes nothing, plain text
passes through, and a tag-only document decodes to its trimmed stripped
text. -/
theorem c7_no_brackets_from_tags_witness :
    stripTags ('<' :: ((("em").toList) ++ '>' :: (("x").toList))) =
      stripTags (("x").toList)
    ∧ stripTags ((("ab ").toList) ++ (("<i>c</i>").toList)) =
      (("ab ").toList) ++ stripTags ((("<i>c</i>").toList))
    ∧ htmlToText (("<p>Hello world</p>").toList) =
      trimJs (stripTags (("<p>Hello world</p>").toList)) :=
  ⟨c7_no_brackets_from_tags.1 (("em").toList) (("x").toList)
      (by decide) (by decide),
   c7_no_brackets_from_tags.2.1 (("ab ").toList) (("<i>c</i>").toList)
      (by decide),
   c7_no_brackets_from_tags.2.2 (("<p>Hello world</p>").toList) (by decide)⟩
